import Mathlib

/-!
Verification of the frontmatter-repair engine of `FixFrontmatterSections.py`.

The Python source is shallowly embedded: every definition below mirrors a
function of the source file (line numbers given in the doc comments).  All
string manipulation is modelled over `List Char` / `String` with ASCII
semantics (the regexes of the source only use ASCII classes; `\w`, `\s`,
`str.strip`, `str.lower` are modelled on their ASCII behaviour, which is the
behaviour exercised by every input considered here).  Calls into the external
`ruamel.yaml` library (`yaml.load`, `yaml.dump`) are not code of this
repository; they are passed as explicit function parameters (`parse`, `dump`)
and instantiated in concrete statements with their documented behaviour on the
concrete strings involved.

Functions that the source writes as loops over strings are embedded as
fuel-based structural recursions (fuel is always at least the length of the
scanned text plus one, and every recursive call consumes at least one
character, so the fuel never runs out; this keeps every definition computable
by the kernel).
-/

namespace FFS

/-- Python's ASCII whitespace set: the characters matched by `str.strip()` and
by the regex class `\s` (space, tab, newline, carriage return, vertical tab,
form feed). -/
def isPySpace (c : Char) : Bool :=
  c == ' ' || c == '\t' || c == '\n' || c == '\x0d' || c == '\x0b' || c == '\x0c'

/-- Python `str.strip()` on a character list. -/
def pyStripL (l : List Char) : List Char :=
  ((l.dropWhile isPySpace).reverse.dropWhile isPySpace).reverse

/-- Python `str.strip()`. -/
def pyStrip (s : String) : String := ⟨pyStripL s.data⟩

/-- Python `str.lstrip()`. -/
def pyLstrip (s : String) : String := ⟨s.data.dropWhile isPySpace⟩

/-- Python `str.strip(chars)`: drop characters belonging to `cs` from both
ends. -/
def pyStripCharsL (cs : List Char) (l : List Char) : List Char :=
  ((l.dropWhile (cs.contains ·)).reverse.dropWhile (cs.contains ·)).reverse

/-- Python `str.replace(pat, repl)` (left-to-right, non-overlapping), on
character lists, fuel-based.  Only called with `pat ≠ []` (as in the source). -/
def replaceAux : Nat → List Char → List Char → List Char → List Char
  | 0, _, _, l => l
  | _ + 1, _, _, [] => []
  | fuel + 1, p, r, l@(c :: rest) =>
    if p.isPrefixOf l then r ++ replaceAux fuel p r (l.drop p.length)
    else c :: replaceAux fuel p r rest

/-- Python `str.replace(pat, repl)`. -/
def pyReplace (s pat repl : String) : String :=
  ⟨replaceAux s.data.length pat.data repl.data s.data⟩

/-- Split a character list at every occurrence of a single character
(Python `str.split(sep)` with a one-character separator). -/
def splitChar (sep : Char) : List Char → List (List Char)
  | [] => [[]]
  | c :: rest =>
    match splitChar sep rest with
    | g :: gs => if c = sep then [] :: g :: gs else (c :: g) :: gs
    | [] => [[c]]

/-- Python `str.splitlines()` restricted to `\n` separators (all the texts
involved here use `\n` newlines only): splits on `\n` and drops the trailing
empty piece produced by a final newline. -/
def pySplitlines (s : String) : List String :=
  if s.data = [] then []
  else
    let parts := splitChar '\n' s.data
    let parts := if s.data.getLast? = some '\n' then parts.dropLast else parts
    parts.map (⟨·⟩)

/-- Join character lists with a separator (Python `sep.join(...)`). -/
def joinWith (sep : List Char) : List (List Char) → List Char
  | [] => []
  | [x] => x
  | x :: y :: xs => x ++ sep ++ joinWith sep (y :: xs)

/-- Python `"\n".join(lines)` on strings. -/
def joinNL (lines : List String) : String :=
  ⟨joinWith ['\n'] (lines.map String.data)⟩

/-- Collapse every run of whitespace to a single space: the regex substitution
`re.sub(r'\s+', ' ', s)`. Fuel-based. -/
def collapseWsAux : Nat → List Char → List Char
  | 0, l => l
  | _ + 1, [] => []
  | fuel + 1, c :: rest =>
    if isPySpace c then ' ' :: collapseWsAux fuel (rest.dropWhile isPySpace)
    else c :: collapseWsAux fuel rest

def collapseWs (l : List Char) : List Char := collapseWsAux (l.length + 1) l

/-- ASCII model of the regex class `\w`: letters, digits and underscore. -/
def isWordChar (c : Char) : Bool :=
  (48 ≤ c.toNat && c.toNat ≤ 57) || (65 ≤ c.toNat && c.toNat ≤ 90)
    || (97 ≤ c.toNat && c.toNat ≤ 122) || c == '_'

/-- ASCII lowercase conversion, the model of Python `str.lower()` used here
(identical to `Char.toLower` of the core library). -/
def pyToLower (c : Char) : Char :=
  if 65 ≤ c.toNat ∧ c.toNat ≤ 90 then Char.ofNat (c.toNat + 32) else c

/-- Uppercase ASCII letter test (code points 65–90). -/
def isUpperA (c : Char) : Bool := 65 ≤ c.toNat && c.toNat ≤ 90

/-- Substring test, Python's `sub in s` on strings. -/
def containsSub (s sub : String) : Bool := decide (sub.data <:+: s.data)

/-- Strict lexicographic comparison by code point, Python's `<` on strings. -/
def lexLt : List Char → List Char → Bool
  | [], [] => false
  | [], _ :: _ => true
  | _ :: _, [] => false
  | a :: as, b :: bs =>
    if a.toNat < b.toNat then true
    else if a = b then lexLt as bs else false

def strLt (a b : String) : Bool := lexLt a.data b.data

/-- First index of `t` in `l`, Python `list.index` wrapped in `try/except`
(source lines 248-251). -/
def pyIndexOf (t : String) : List String → Option Nat
  | [] => none
  | x :: xs =>
    if x = t then some 0
    else (pyIndexOf t xs).map (· + 1)

/-- A YAML value as it occurs in the frontmatter mappings handled by the
source: a string scalar or a list of string scalars (the only shapes the
engine's field logic manipulates; the claims considered here stay inside this
domain). -/
inductive YVal where
  | s (v : String)
  | l (items : List String)
deriving DecidableEq, Repr

/-- Python `str(value)` for the modelled YAML values.  For a list Python
renders `repr`, modelled here for strings without quote or control characters
inside (the only case arising). -/
def pyReprStr (s : String) : String :=
  if s.data.contains '\'' && !s.data.contains '"' then "\"" ++ s ++ "\""
  else "'" ++ s ++ "'"

def pyStr : YVal → String
  | .s v => v
  | .l items => "[" ++ ⟨joinWith [',', ' '] (items.map (fun i => (pyReprStr i).data))⟩ ++ "]"

/-- Python truthiness of the modelled values (`if title:`). -/
def pyTruthy : YVal → Bool
  | .s v => v ≠ ""
  | .l items => items ≠ []

/-- Source lines 24-27, `strip_extra_quotes`: strip quote characters from both
ends (twice, with the same character set) and then whitespace. -/
def strip_extra_quotes (s : String) : String :=
  ⟨pyStripL (pyStripCharsL ['"', '\''] (pyStripCharsL ['\'', '"'] s.data))⟩

/-- Source lines 29-30, `normalize`: collapse whitespace runs in the
quote-stripped string, delete every `?`, and strip. -/
def normalize (s : String) : String :=
  ⟨pyStripL ((collapseWs (strip_extra_quotes s).data).filter (· ≠ '?'))⟩

/-- Source lines 148-156, `sanitize_tag` (string case; the non-string case
returns `False` and is modelled by the callers filtering such items out):
strip, replace spaces by underscores, strip, replace hyphens by underscores,
delete every character outside `[\w\-]`, lowercase. -/
def sanitize_tag (s : String) : String :=
  let t1 := pyStripL s.data
  let t2 := t1.map (fun c => if c = ' ' then '_' else c)
  let t3 := pyStripL t2
  let t4 := t3.map (fun c => if c = '-' then '_' else c)
  let t5 := t4.filter (fun c => isWordChar c || c = '-')
  ⟨t5.map pyToLower⟩

/-- An element of a raw `tags` value: a string, or something of another type
(for which `sanitize_tag` returns `False` and the element is dropped). -/
inductive PyTagItem where
  | str (s : String)
  | nonstr
deriving DecidableEq

/-- The argument shapes `clean_tags` distinguishes (source lines 158-165). -/
inductive RawTags where
  | str (s : String)
  | list (items : List PyTagItem)
  | other
deriving DecidableEq

/-- Insert into a strictly sorted list without duplicating, comparing by code
points; folding this over a list yields exactly Python's
`sorted(set(...))`. -/
def insertSortedU (x : String) : List String → List String
  | [] => [x]
  | y :: ys =>
    if strLt x y then x :: y :: ys
    else if x = y then y :: ys
    else y :: insertSortedU x ys

def sortedSet (l : List String) : List String := l.foldr insertSortedU []

/-- Source lines 158-173, `clean_tags`: comma-split strings, keep list inputs,
empty list for anything else; sanitize each string element, drop falsy
results, deduplicate and sort. -/
def clean_tags (raw : RawTags) : List String :=
  let tags : List PyTagItem :=
    match raw with
    | .str s =>
      ((((splitChar ',' s.data).map pyStripL).filter (· ≠ [])).map
        (fun l => PyTagItem.str ⟨l⟩))
    | .list items => items
    | .other => []
  sortedSet (tags.filterMap (fun t =>
    match t with
    | .str s => let c := sanitize_tag s; if c = "" then none else some c
    | .nonstr => none))

/-- The `while` loop of source lines 83-84: repeatedly remove a matching pair
of wrapping quotes (and strip whitespace) while the string both starts and
ends with the same quote character.  Fuel-based; each iteration shortens the
string, so `length + 1` fuel is exact. -/
def stripWrapQuotesAux : Nat → List Char → List Char
  | 0, l => l
  | fuel + 1, l =>
    if (l.head? = some '"' ∧ l.getLast? = some '"')
        ∨ (l.head? = some '\'' ∧ l.getLast? = some '\'') then
      stripWrapQuotesAux fuel (pyStripL ((l.drop 1).dropLast))
    else l

def stripWrapQuotes (l : List Char) : List Char :=
  stripWrapQuotesAux (l.length + 1) l

/-- Drop a leading run of two or more quote characters:
`re.sub(r'^[\'"]{2,}', '', s)` (source line 87). -/
def dropLeadQuoteRun (l : List Char) : List Char :=
  let run := l.takeWhile (fun c => c = '\'' || c = '"')
  if 2 ≤ run.length then l.drop run.length else l

/-- Drop a trailing run of two or more quote characters:
`re.sub(r'[\'"]{2,}$', '', s)` (source line 88). -/
def dropTrailQuoteRun (l : List Char) : List Char :=
  (dropLeadQuoteRun l.reverse).reverse

/-- One iteration of the `clean_malformed_title` loop body (source lines
77-88): unescape `\\\\`, `\\"`, `\\'`, remove wrapping quote pairs, then drop
leading/trailing runs of repeated quotes. -/
def cmtStep (s : String) : String :=
  let u1 := pyReplace s "\\\\" "\\"
  let u2 := pyReplace u1 "\\\"" "\""
  let u3 := pyReplace u2 "\\'" "'"
  ⟨dropTrailQuoteRun (dropLeadQuoteRun (stripWrapQuotes u3.data))⟩

/-- The bounded loop of `clean_malformed_title` (source lines 71-88):
`last_s`-tracking with at most `fuel` iterations. -/
def cmtLoop : Nat → Option String → String → String
  | 0, _, s => s
  | fuel + 1, last, s =>
    if some s = last then s
    else cmtLoop fuel (some s) (cmtStep s)

/-- Source lines 61-90, `clean_malformed_title` (string case): strip, run the
unescape loop capped at 5 iterations with early exit on a fixed point, strip
the result. -/
def clean_malformed_title (raw : String) : String :=
  pyStrip (cmtLoop 5 none (pyStrip raw))

/-- Source line 186, `normalize_for_compare`: strip whitespace, strip double
then single quotes, delete brackets, collapse whitespace runs, lowercase. -/
def normalize_for_compare (s : String) : String :=
  let t1 := pyStripCharsL ['\''] (pyStripCharsL ['"'] (pyStripL s.data))
  let t2 := t1.filter (fun c => c ≠ '[' ∧ c ≠ ']')
  ⟨(collapseWs t2).map pyToLower⟩

/-- Restricted model of `ast.literal_eval` as used by `sanitize_list_field`
(source lines 35-40).  Returns `some (some items)` for a flat Python list
literal of quoted strings, `some none` for a recognised non-list literal
(integer, `True`/`False`/`None`, or a quoted string), and `none` when
evaluation raises.  None of the statements below evaluates this function on a
string that is a Python literal; it exists so that the shape of
`sanitize_list_field` matches the source. -/
def pyLitString (l : List Char) : Option String :=
  match l with
  | '\'' :: rest =>
    if rest.getLast? = some '\'' ∧ ¬(rest.dropLast.contains '\'')
        ∧ ¬(rest.dropLast.contains '\\') then some ⟨rest.dropLast⟩ else none
  | '"' :: rest =>
    if rest.getLast? = some '"' ∧ ¬(rest.dropLast.contains '"')
        ∧ ¬(rest.dropLast.contains '\\') then some ⟨rest.dropLast⟩ else none
  | _ => none

def pyLiteralEval (s : String) : Option (Option (List String)) :=
  let t := pyStripL s.data
  match t with
  | '[' :: rest =>
    if rest.getLast? = some ']' then
      let inner := pyStripL rest.dropLast
      if inner = [] then some (some [])
      else
        let pieces := (splitChar ',' inner).map pyStripL
        let lits := pieces.mapM (fun p => pyLitString p)
        match lits with
        | some items => some (some items)
        | none => none
    else none
  | _ =>
    if t ≠ [] ∧ t.all (fun c => c.isDigit) then some none
    else if t = "True".data ∨ t = "False".data ∨ t = "None".data then some none
    else
      match pyLitString t with
      | some _ => some none
      | none => none

/-- Source lines 32-59, `sanitize_list_field`.  `value` is the field's parsed
YAML value, `title` the value of the `title` field when the caller passes it
(`aliases` only).  Mirrors the source: a string value is quote-stripped and
pushed through `ast.literal_eval` (a list result replaces the value, any
failure wraps the string in a one-element list, a non-list literal keeps the
string, which then falls through to the final quoted-singleton return); a list
value is collapsed to `[norm_title]` when the title is truthy, its
normalization non-empty, the list is a singleton and the element normalizes to
the normalized title; otherwise every element is normalized and re-quoted when
it contains a character of the class `[\s,:|]`. -/
def needsQuote (s : String) : Bool :=
  s.data.any (fun c => isPySpace c || c == ',' || c == ':' || c == '|')

def sanitize_list_field (value : YVal) (title : Option YVal) : List String :=
  let listed : Option (List String) :=
    match value with
    | .s v =>
      let v' := strip_extra_quotes v
      match pyLiteralEval v' with
      | some (some parsed) => some parsed
      | some none => none
      | none => some [v']
    | .l items => some items
  match listed with
  | some items =>
    let norm_title : Option String :=
      match title with
      | some t => if pyTruthy t then some (normalize (pyStr t)) else none
      | none => none
    match norm_title with
    | some nt =>
      if nt ≠ "" ∧ items.length = 1 ∧ normalize (items.headD "") = nt then [nt]
      else items.map (fun item =>
        let n := normalize item
        if needsQuote n then "\"" ++ n ++ "\"" else n)
    | none =>
      items.map (fun item =>
        let n := normalize item
        if needsQuote n then "\"" ++ n ++ "\"" else n)
  | none =>
    match value with
    | .s v =>
      let n := normalize (strip_extra_quotes v)
      ["\"" ++ n ++ "\""]
    | .l _ => []

/-- Model of `os.path.splitext(os.path.basename(filename))[0]` (source lines 267 and
308): the base name of the path without its final extension.  Python's
`splitext` splits at the last dot of the base name unless every character
before that dot is itself a dot. -/
def pyBasename (s : String) : String :=
  ⟨(((splitChar '/' s.data).getLast?).getD [])⟩

def pyStem (s : String) : String :=
  let b := (pyBasename s).data
  let ext := b.reverse.takeWhile (· ≠ '.')
  if ext.length = b.length then ⟨b⟩
  else
    let stemLen := b.length - ext.length - 1
    if (b.take stemLen).all (· = '.') then ⟨b⟩
    else ⟨b.take stemLen⟩

/-- Prefix test on strings that the kernel can evaluate. -/
def strStarts (s p : String) : Bool := p.data.isPrefixOf s.data

/-- Source lines 20-22, `fix_dangling_heading`:
`re.sub(r'^---(.)', '---\n\1', content, flags=re.MULTILINE)`.
The replacement is an ordinary (non-raw) Python string, so `'\1'` is the
octal escape for the character U+0001, not a backreference: each line that
starts with `---` followed by at least one character is rewritten to `---`,
a newline, the character U+0001, and the rest of the line with its first
character after `---` removed. -/
def fix_dangling_heading (content : String) : String :=
  ⟨joinWith ['\n'] ((splitChar '\n' content.data).map (fun l =>
    if "---".data.isPrefixOf l ∧ 4 ≤ l.length then
      '-' :: '-' :: '-' :: '\n' :: '\x01' :: l.drop 4
    else l))⟩

/-- Python `str.rstrip(']')`. -/
def rstripBracket (s : String) : String :=
  ⟨(s.data.reverse.dropWhile (· = ']')).reverse⟩

/-- Source lines 120-146, `fix_multiline_unquoted_alias_url`: collapse
`aliases: [` followed by a line holding a bare URL (with optional closing
bracket) into a block list, consuming both lines. -/
def fixMultiAux : Nat → List String → List String
  | 0, l => l
  | _ + 1, [] => []
  | fuel + 1, line :: rest =>
    if strStarts (pyStrip line) "aliases: [" then
      match rest with
      | next :: rest2 =>
        let nt := pyStrip next
        if strStarts nt "http://" || strStarts nt "https://" then
          "aliases:" :: ("  - \"" ++ rstripBracket nt ++ "\"") :: fixMultiAux fuel rest2
        else line :: fixMultiAux fuel rest
      | [] => line :: fixMultiAux fuel rest
    else line :: fixMultiAux fuel rest

def fix_multiline_unquoted_alias_url (s : String) : String :=
  joinNL (fixMultiAux ((pySplitlines s).length + 1) (pySplitlines s))

/-- Matcher for `^\s*aliases\s*:\s*\[(https?://[^\]]+)\]\s*$` applied to an
already stripped line (source line 98); returns the stripped URL group. -/
def matchAliasUrlLine (line : String) : Option String :=
  let t := pyStripL line.data
  if "aliases".data.isPrefixOf t then
    match (t.drop 7).dropWhile isPySpace with
    | ':' :: r2 =>
      match r2.dropWhile isPySpace with
      | '[' :: r4 =>
        let content := r4.takeWhile (· ≠ ']')
        let scheme_ok :=
          ("http://".data.isPrefixOf content ∧ 8 ≤ content.length)
          ∨ ("https://".data.isPrefixOf content ∧ 9 ≤ content.length)
        match r4.drop content.length with
        | ']' :: r5 =>
          if scheme_ok ∧ r5.all isPySpace then some (pyStrip ⟨content⟩) else none
        | _ => none
      | _ => none
    | _ => none
  else none

/-- Source lines 92-104, `quote_url_like_aliases`: a line whose stripped form
is `aliases: [http(s)://…]` becomes a two-line block list entry. -/
def quote_url_like_aliases (s : String) : String :=
  joinNL ((pySplitlines s).map (fun line =>
    match matchAliasUrlLine line with
    | some url => "aliases:\n  - \"" ++ url ++ "\""
    | none => line))

/-- Matcher for `^\s*source\s*:\s*(https?://[^\]]+)\s*$` applied to a stripped
line (source line 112). -/
def matchSourceUrlLine (line : String) : Option String :=
  let t := pyStripL line.data
  if "source".data.isPrefixOf t then
    match (t.drop 6).dropWhile isPySpace with
    | ':' :: r2 =>
      let rest := r2.dropWhile isPySpace
      let scheme_ok :=
        ("http://".data.isPrefixOf rest ∧ 8 ≤ rest.length)
        ∨ ("https://".data.isPrefixOf rest ∧ 9 ≤ rest.length)
      if scheme_ok ∧ ¬(rest.contains ']') then some (pyStrip ⟨rest⟩) else none
    | _ => none
  else none

/-- Source lines 106-118, `quote_url_like_source`: a line whose stripped form
is `source: http(s)://…` gets its URL double-quoted. -/
def quote_url_like_source (s : String) : String :=
  joinNL ((pySplitlines s).map (fun line =>
    match matchSourceUrlLine line with
    | some url => "source: \"" ++ url ++ "\""
    | none => line))

/-- Source lines 244-254, the inner `extract_frontmatter_block` of
`fix_frontmatter`: splits the document into lines; requires at least three
lines, a first line that strips to `---`, and a later line equal to `---`;
returns the text strictly between the first line and the first such closing
line, the closing line's index, and the remainder. -/
def extract_frontmatter_block (content : String) : Option (String × Nat × String) :=
  let lines := pySplitlines content
  if lines.length < 3 ∨ pyStrip (lines.headD "") ≠ "---" then none
  else
    match pyIndexOf "---" (lines.drop 1) with
    | none => none
    | some idx =>
      some (joinNL ((lines.drop 1).take idx), idx + 1, joinNL (lines.drop (idx + 2)))

/-- All the ways the regex piece `".*?"` can close when its opening quote has
already been consumed: one entry per `"` in the list with no newline before
it, as `(content before the quote, rest after it)`, in increasing order of
position (the order regex backtracking tries them, shortest first). -/
def splitsAtQuote : List Char → List (List Char × List Char)
  | [] => []
  | c :: rest =>
    if c = '\n' then []
    else
      (if c = '"' then [(([] : List Char), rest)] else []) ++
      (splitsAtQuote rest).map (fun p => (c :: p.1, p.2))

/-- Match `(".*?")\s+(".*?")` anchored at the start of `l` (source line 192).
Returns the replacement `\1, \2` together with the rest after the match.
`\s+` can only succeed at the full extent of the whitespace run (shorter
extents leave a whitespace character where `"` is required), and the second
group closes at the earliest possible quote. -/
def tryQuotedPair (l : List Char) : Option (List Char × List Char) :=
  match l with
  | '"' :: cs =>
    (splitsAtQuote cs).findSome? (fun g1 =>
      let ws := g1.2.takeWhile isPySpace
      if ws = [] then none
      else
        match g1.2.drop ws.length with
        | '"' :: cs2 =>
          match splitsAtQuote cs2 with
          | g2 :: _ =>
            some ((('"' :: g1.1 ++ ['"']) ++ [',', ' '] ++ ('"' :: g2.1 ++ ['"'])), g2.2)
          | [] => none
        | _ => none)
  | _ => none

/-- Global substitution for `re.sub(r'(".*?")\s+(".*?")', r'\1, \2', s)`:
scan left to right, replace non-overlapping matches, resume after each
match. -/
def scanQuotedPairs : Nat → List Char → List Char
  | 0, l => l
  | _ + 1, [] => []
  | fuel + 1, l@(c :: rest) =>
    match tryQuotedPair l with
    | some (repl, rest2) => repl ++ scanQuotedPairs fuel rest2
    | none => c :: scanQuotedPairs fuel rest

/-- Source lines 175-183, `extract_title_from_raw_frontmatter`: the first line
starting with `title:` whose remainder is non-empty yields that remainder
stripped (the regex `^title:\s*(.+)$` in MULTILINE mode matches a line exactly
when something follows the colon, and the group, after the source's own
`.strip()`, is the remainder stripped), cleaned by `clean_malformed_title`;
otherwise `None`. -/
def extract_title_from_raw_frontmatter (fmText : String) : Option String :=
  ((pySplitlines fmText).findSome? (fun line =>
    if strStarts line "title:" ∧ line.data.drop 6 ≠ [] then
      some (pyStrip ⟨line.data.drop 6⟩)
    else none)).map clean_malformed_title

/-- Model of `re` replacement-template processing for templates without group
references: `\` before a non-alphanumeric character denotes that character,
`\n`/`\t`/`\r` denote control characters, and any other escape (including
numeric group references, which the source's templates only contain for
pathological titles never considered here) is modelled as the library error
`re.error`. -/
def processTemplate : List Char → Except String (List Char)
  | [] => .ok []
  | ['\\'] => .error "re.error: bad escape (end of pattern)"
  | '\\' :: c :: rest =>
    if c = 'n' then (processTemplate rest).map ('\n' :: ·)
    else if c = 't' then (processTemplate rest).map ('\t' :: ·)
    else if c = 'r' then (processTemplate rest).map ('\x0d' :: ·)
    else if c.isAlphanum then .error "re.error: bad escape"
    else (processTemplate rest).map (c :: ·)
  | c :: rest => (processTemplate rest).map (c :: ·)

/-- Match `title:\s*(.+)` anchored at the start of `l` (no MULTILINE flag:
`\s*` may cross newlines, `.` may not).  Returns the rest after the match.
When everything after the whitespace run is empty, `\s*` backtracks so that
`.+` can still take the last non-newline whitespace character of the run. -/
def matchTitleAt (l : List Char) : Option (List Char) :=
  if "title:".data.isPrefixOf l then
    let after := l.drop 6
    let run := after.takeWhile isPySpace
    let rem := after.drop run.length
    match rem with
    | _ :: _ => some (rem.drop (rem.takeWhile (· ≠ '\n')).length)
    | [] =>
      let upto := run.reverse.dropWhile (· = '\n')
      if upto = [] then none else some (run.drop upto.length)
  else none

/-- Match `aliases:\s*\[(.*?)\]` anchored at the start of `l`: after the
literal and a whitespace run, an opening bracket, then the shortest run of
non-newline non-bracket characters up to a closing bracket.  Returns the
group and the rest after the match. -/
def matchAliasesInlineAt (l : List Char) : Option (List Char × List Char) :=
  if "aliases:".data.isPrefixOf l then
    let after := l.drop 8
    match after.drop (after.takeWhile isPySpace).length with
    | '[' :: r4 =>
      let content := r4.takeWhile (fun c => c ≠ ']' ∧ c ≠ '\n')
      match r4.drop content.length with
      | ']' :: rest => some (content, rest)
      | _ => none
    | _ => none
  else none

/-- Match `tags:\s*\[(.*?)\]` anchored at the start of `l`. -/
def matchTagsInlineAt (l : List Char) : Option (List Char × List Char) :=
  if "tags:".data.isPrefixOf l then
    let after := l.drop 5
    match after.drop (after.takeWhile isPySpace).length with
    | '[' :: r4 =>
      let content := r4.takeWhile (fun c => c ≠ ']' ∧ c ≠ '\n')
      match r4.drop content.length with
      | ']' :: rest => some (content, rest)
      | _ => none
    | _ => none
  else none

/-- Model of `re.search`: the group of the leftmost match of an anchored matcher. -/
def searchGroup (matchAt : List Char → Option (List Char × List Char)) :
    Nat → List Char → Option (List Char)
  | 0, _ => none
  | _ + 1, [] => none
  | fuel + 1, l@(_ :: rest) =>
    match matchAt l with
    | some (g, _) => some g
    | none => searchGroup matchAt fuel rest

/-- Model of `re.sub` with a constant replacement: scan left to right, replace up to
`count` non-overlapping matches of the anchored matcher, resume after each
match. -/
def subConstAux (matchAt : List Char → Option (List Char)) (repl : List Char) :
    Nat → Nat → List Char → List Char
  | 0, _, l => l
  | _ + 1, 0, l => l
  | fuel + 1, count + 1, l =>
    match l with
    | [] => []
    | c :: rest =>
      match matchAt l with
      | some rest2 => repl ++ subConstAux matchAt repl fuel count rest2
      | none => c :: subConstAux matchAt repl fuel (count + 1) rest

/-- Model of `re.split(r',\s*', s)`: split at each comma, discarding the whitespace run
that follows it. -/
def splitCommaWsAux : Nat → List Char → List Char → List (List Char)
  | 0, cur, l => [cur.reverse ++ l]
  | _ + 1, cur, [] => [cur.reverse]
  | fuel + 1, cur, c :: rest =>
    if c = ',' then cur.reverse :: splitCommaWsAux fuel [] (rest.dropWhile isPySpace)
    else splitCommaWsAux fuel (c :: cur) rest

def splitCommaWs (l : List Char) : List (List Char) :=
  splitCommaWsAux (l.length + 1) [] l

/-- Python `x.strip().strip('"').strip("'")` (source lines 220 and 232). -/
def stripWsDqSq (l : List Char) : List Char :=
  pyStripCharsL ['\''] (pyStripCharsL ['"'] (pyStripL l))

/-- Quote an item when it contains a character of the class `[\s,:|]`
(source lines 221 and 233). -/
def quoteIfNeeded (i : List Char) : List Char :=
  if i.any (fun c => isPySpace c || c == ',' || c == ':' || c == '|') then
    '"' :: i ++ ['"']
  else i

/-- Step 3 of the rescue (source lines 229-241): rewrite an inline
`tags: [...]` list to block style, underscoring spaces and hyphens. -/
def rescueTagsStep (s3 : List Char) : Except String String :=
  match searchGroup matchTagsInlineAt (s3.length + 1) s3 with
  | some rawT =>
    let items := (splitCommaWs rawT).map (fun x =>
      ((stripWsDqSq x).map (fun c => if c = ' ' then '_' else c)).map
        (fun c => if c = '-' then '_' else c))
    let cleaned := joinWith "\n  - ".data (items.map quoteIfNeeded)
    match processTemplate ("tags:\n  - ".data ++ cleaned) with
    | .error e => .error e
    | .ok replT =>
      .ok ⟨subConstAux (fun l => (matchTagsInlineAt l).map (·.2)) replT
            (s3.length + 1) (s3.length + 1) s3⟩
  | none => .ok ⟨s3⟩

/-- Source lines 188-241, `attempt_fix_broken_frontmatter`.  Step 1 inserts
commas between adjacent quoted scalars; step 2 re-quotes the title extracted
from the raw frontmatter (raising `AttributeError` when there is none, because
the `None` result immediately receives `.replace`); step 2b rewrites an inline
`aliases: [...]` list (collapsing to the normalized title when that title
occurs in the normalized list text, with replacement count 8 because
`re.MULTILINE` is passed in the count position; otherwise splitting on commas,
unlimited count); step 3 rewrites an inline `tags: [...]` list.  Exceptions
escape, as they do in the source, where the call sits outside the inner
`try`. -/
def attempt_fix_broken_frontmatter (fmText : String) : Except String String :=
  let s1 : List Char := scanQuotedPairs (fmText.data.length + 1) fmText.data
  match extract_title_from_raw_frontmatter fmText with
  | none => .error "AttributeError: NoneType has no attribute replace"
  | some t0 =>
    let t1 := pyReplace t0 "\"" "\\\""
    let t2 := pyReplace t1 " - " " "
    let t3 := pyReplace t2 "|" ""
    let t4 := pyReplace t3 "[" ""
    let t5 := pyReplace t4 "]" ""
    match processTemplate ("title: \"".data ++ t5.data ++ ['"']) with
    | .error e => .error e
    | .ok replTitle =>
      let s2 := subConstAux matchTitleAt replTitle (s1.length + 1) (s1.length + 1) s1
      match searchGroup matchAliasesInlineAt (s2.length + 1) s2 with
      | some rawA =>
        let ra1 := pyReplace ⟨rawA⟩ "\"" "\\\""
        let ra2 := pyReplace ra1 " - " " "
        let ra3 := pyReplace ra2 "|" ""
        let ra4 := pyReplace ra3 "[" ""
        let ra5 := pyReplace ra4 "]" ""
        if t5 ≠ "" ∧ containsSub (normalize_for_compare ra5) (normalize_for_compare t5) then
          let cleaned := normalize_for_compare t5
          match processTemplate ("aliases:\n  - \"".data ++ cleaned.data ++ ['"']) with
          | .error e => .error e
          | .ok replA =>
            rescueTagsStep (subConstAux (fun l => (matchAliasesInlineAt l).map (·.2))
              replA (s2.length + 1) 8 s2)
        else
          let items := (splitCommaWs ra5.data).map stripWsDqSq
          let cleaned := joinWith "\n  - ".data (items.map quoteIfNeeded)
          match processTemplate ("aliases:\n  - ".data ++ cleaned) with
          | .error e => .error e
          | .ok replB =>
            rescueTagsStep (subConstAux (fun l => (matchAliasesInlineAt l).map (·.2))
              replB (s2.length + 1) (s2.length + 1) s2)
      | none => rescueTagsStep s2

/-- The parsed frontmatter mapping: an insertion-ordered association list,
modelling the (CommentedMap) dict returned by `yaml.load`. -/
abbrev FM := List (String × YVal)

def fmGet (d : FM) (k : String) : Option YVal :=
  (d.find? (fun p => p.1 = k)).map (·.2)

def fmContains (d : FM) (k : String) : Bool := (fmGet d k).isSome

/-- Assignment `d[k] = v`: replace in place, or append (dict insertion order). -/
def fmSet (d : FM) (k : String) (v : YVal) : FM :=
  if fmContains d k then d.map (fun p => if p.1 = k then (k, v) else p)
  else d ++ [(k, v)]

/-- Conversion of `data['tags']` into the argument shape of `clean_tags` (source line 302). -/
def toRawTags : YVal → RawTags
  | .s v => .str v
  | .l items => .list (items.map .str)

/-- The per-file outcome reported by `fix_frontmatter` (source lines 275, 288,
321, 323). -/
inductive Status where
  | inserted
  | fixed
  | unmodified
  | stillInvalid (msg : String)
deriving DecidableEq, Repr

/-- Model of `str(e).splitlines()[0]` (source line 288) for non-empty messages. -/
def firstLine (s : String) : String := ⟨s.data.takeWhile (· ≠ '\n')⟩

/-- Source lines 293-298: normalize the four known list fields in order,
passing the title only for `aliases`; a field counts as modified when the
cleaned list differs from the stored value. -/
def listFieldPass (d : FM) (title_value : Option YVal) : FM × Bool :=
  ["aliases", "tags", "topics", "categories"].foldl (fun acc key =>
    match fmGet acc.1 key with
    | some v =>
      let cleaned := sanitize_list_field v (if key = "aliases" then title_value else none)
      if v ≠ .l cleaned then (fmSet acc.1 key (.l cleaned), true) else acc
    | none => acc) (d, false)

/-- Source lines 300-305: when the literal substring `tags` occurs in the raw
frontmatter text, read `data['tags']` (a `KeyError` when absent), clean it,
and store the cleaned list when it differs. -/
def tagsPass (d : FM) (fm : String) : Except String (FM × Bool) :=
  if containsSub fm "tags" then
    match fmGet d "tags" with
    | none => .error "KeyError: tags"
    | some ot =>
      let ct := clean_tags (toRawTags ot)
      if ot ≠ .l ct then .ok (fmSet d "tags" (.l ct), true) else .ok (d, false)
  else .ok (d, false)

/-- Source lines 307-315: fill the required fields that are absent with their
computed defaults (file stem, creation timestamp, `[default_tag]`). -/
def requiredPass (required : List String) (stem ctime default_tag : String)
    (d : FM) : FM × Bool :=
  let r1 : FM × Bool :=
    if required.contains "title" && !fmContains d "title" then
      (fmSet d "title" (.s stem), true)
    else (d, false)
  let r2 : FM × Bool :=
    if required.contains "created" && !fmContains r1.1 "created" then
      (fmSet r1.1 "created" (.s ctime), true)
    else r1
  if required.contains "tags" && !fmContains r2.1 "tags" then
    (fmSet r2.1 "tags" (.l [default_tag]), true)
  else r2

/-- Source lines 290-323: the field-normalization and decision phase of
`fix_frontmatter`, entered with `modified = False` regardless of whether the
parse needed the rescue (line 290 resets the flag set at line 285). -/
def normalizeAndDecide (dump : FM → String) (required : List String)
    (default_tag ctime stem : String) (d0 : FM) (fm body : String) :
    Except String (Option String × Status) :=
  let title_value := fmGet d0 "title"
  let p1 := listFieldPass d0 title_value
  match tagsPass p1.1 fm with
  | .error e => .error e
  | .ok p2 =>
    let p3 := requiredPass required stem ctime default_tag p2.1
    if p1.2 || p2.2 || p3.2 then
      .ok (some ("---\n" ++ dump p3.1 ++ "---\n" ++ body), .fixed)
    else
      .ok (none, .unmodified)

/-- Source lines 243-323, `fix_frontmatter`.  `parse` and `dump` model the
external `ruamel.yaml` calls; `.ok none` from `parse` is a YAML null document
(`yaml.load` returning `None`, which the first call coerces with `or {}` and
the rescue call does not, crashing at `data.get`).  `ctime` is the formatted
creation timestamp of `filename`. -/
def fix_frontmatter (parse : String → Except String (Option FM))
    (dump : FM → String) (required : List String) (default_tag ctime : String)
    (filename : String) (content : String) :
    Except String (Option String × Status) :=
  match extract_frontmatter_block content with
  | none =>
    let d0 : FM := []
    let d1 := if required.contains "title" then fmSet d0 "title" (.s (pyStem filename)) else d0
    let d2 := if required.contains "created" then fmSet d1 "created" (.s ctime) else d1
    let d3 := if required.contains "tags" then fmSet d2 "tags" (.l [default_tag]) else d2
    .ok (some ("---\n" ++ dump d3 ++ "---\n" ++ pyLstrip content), .inserted)
  | some (fm, _, body) =>
    match parse fm with
    | .ok dOpt =>
      normalizeAndDecide dump required default_tag ctime (pyStem filename)
        (dOpt.getD []) fm body
    | .error _ =>
      match attempt_fix_broken_frontmatter fm with
      | .error e => .error e
      | .ok fixedText =>
        match parse fixedText with
        | .error e2 => .ok (none, .stillInvalid (firstLine e2))
        | .ok none => .error "AttributeError: NoneType has no attribute get"
        | .ok (some d) =>
          normalizeAndDecide dump required default_tag ctime (pyStem filename)
            d fm body

/-- Source lines 333-362: the body of the batch loop for a single file.
Applies the four structural pre-fixers, runs `fix_frontmatter`, and returns
what gets written (`some text`) or `none`, paired with the status; exceptions
escape into the batch loop.  The write decision mirrors the source's
truthiness tests: a non-empty fixed content is written, otherwise the
pre-fixed text is written exactly when the pre-fixers changed the text. -/
def preFixers (content : String) : String :=
  quote_url_like_source (quote_url_like_aliases
    (fix_multiline_unquoted_alias_url (fix_dangling_heading content)))

def process_vault_step (parse : String → Except String (Option FM))
    (dump : FM → String) (required : List String) (default_tag ctime : String)
    (filename : String) (content : String) :
    Except String (Option String × Status) :=
  let p4 := preFixers content
  let heading_fixed : Bool := p4 ≠ content
  match fix_frontmatter parse dump required default_tag ctime filename p4 with
  | .error e => .error e
  | .ok (some fc, status) =>
    if fc ≠ "" then .ok (some fc, status)
    else if heading_fixed then .ok (some p4, status) else .ok (none, status)
  | .ok (none, status) =>
    if heading_fixed then .ok (some p4, status) else .ok (none, status)

/-- The text on disk after one run of the step: the written text, or the
original when nothing is written (a crash writes nothing). -/
def finalText (content : String) (r : Except String (Option String × Status)) : String :=
  match r with
  | .ok (some w, _) => w
  | _ => content

/-- Concrete `yaml.dump` oracle used in the closed statements below: ruamel's
block-style rendering (`default_flow_style = False`) for mappings of plain
scalar strings and lists of plain scalar strings, its documented output shape
for every mapping those statements dump. -/
def dumpModel (d : FM) : String :=
  d.foldl (fun acc p =>
    acc ++ p.1 ++ (match p.2 with
      | .s v => ": " ++ v ++ "\n"
      | .l items => ":\n" ++ items.foldl (fun a i => a ++ "- " ++ i ++ "\n") "")) ""

/-- Concrete `yaml.load` oracle for closed statements in which every queried
string is invalid YAML.  It is queried only on the frontmatter texts
`"bad: ["`, `"title: x\nbad: [\nsource: \"https://e.com\""` and
`"title: \"x\"\nbad: [\nsource: \"https://e.com\""`, each of which contains an
unterminated flow sequence `[`, which `ruamel.yaml` rejects with a parser
error. -/
def yamlRejects : String → Except String (Option FM) := fun _ =>
  .error "while parsing a flow node: expected the node content"

/-- Concrete `yaml.load` oracle for the idempotence counterexample.  It is
queried only on `"tags:\n- My Tag"`, a plain block mapping with a one-element
block list, which parses to exactly that mapping. -/
def parseTagsMyTag : String → Except String (Option FM) := fun s =>
  if s = "tags:\n- My Tag" then .ok (some [("tags", .l ["My Tag"])])
  else .error "oracle queried outside its domain"

/-- Concrete `yaml.load` oracle for the rescued-then-unchanged statement.  It
is queried on `"title: a: b"` (a second `: ` inside a plain scalar, rejected
by YAML with "mapping values are not allowed here") and on the rescue's
output `"title: \"a: b\""` (a quoted scalar, parsing to the shown mapping). -/
def parseTitleColon : String → Except String (Option FM) := fun s =>
  if s = "title: \"a: b\"" then .ok (some [("title", .s "a: b")])
  else .error "mapping values are not allowed here"

/-- Concrete `yaml.load` oracle for valid-and-unmodified runs.  It is queried
only on `"title: t"`, which parses to the shown one-entry mapping. -/
def parseTitleT : String → Except String (Option FM) := fun s =>
  if s = "title: t" then .ok (some [("title", .s "t")])
  else .error "oracle queried outside its domain"

/-- Original text of the rescue-failure counterexample: the pre-fixers quote
the bare `source:` URL, and the frontmatter keeps an unterminated `[` that no
rescue rewrite repairs. -/
def origRescueFail : String := "---\ntitle: x\nbad: [\nsource: https://e.com\n---\nbody"

/-- The same text after the structural pre-fixers. -/
def preRescueFail : String := "---\ntitle: x\nbad: [\nsource: \"https://e.com\"\n---\nbody"

/-- First-run output of the idempotence counterexample (`default_tag` is
`"My Tag"`, only `tags` required, input `"hello"` with no frontmatter). -/
def idemOut1 : String := "---\ntags:\n- My Tag\n---\nhello"

/-- Second-run output: the run rewrites the tag to its sanitized form. -/
def idemOut2 : String := "---\ntags:\n- my_tag\n---\nhello"

/-- Definition following the words of claim C6 ("case- and whitespace-
normalization (with trailing `?` stripped)"), for comparison with the code:
the source's `normalize` followed by ASCII lowercasing. -/
def specCaseNormalize (s : String) : String := ⟨(normalize s).data.map pyToLower⟩

end FFS

namespace FFS

/-- Claim C4: the claim states that a line beginning `---` glued to a further
character is split into `---`, a newline, and the untouched remainder, so that
`"---# Heading"` becomes `"---\n# Heading"`.  The code's replacement string
`'---\n\1'` is not a raw string, so `\1` is the character U+0001 rather than a
backreference, and the code instead produces `"---\n\x01 Heading"`: the
matched character `#` is replaced by U+0001.  This theorem evaluates the
embedded code at the claim's own example. -/
theorem claim_C4 :
    fix_dangling_heading "---# Heading" = "---\n\x01 Heading" ∧
    fix_dangling_heading "---# Heading" ≠ "---\n# Heading" := by
  exact ⟨by decide, by decide⟩

/-- Claim C1: the claim states that every per-file error, including errors
raised inside the rescue-rewrite step when the unparseable frontmatter has no
`title:` line, is converted into a status report and never escapes into the
batch loop.  In the code, `attempt_fix_broken_frontmatter` is called outside
the inner `try`, and with no `title:` line the extracted title is `None`,
whose `.replace` raises `AttributeError`; the exception escapes
`fix_frontmatter` and the batch-loop body.  This theorem evaluates the
embedded per-file step at such a file: the result is the escaped exception,
not a status report. -/
theorem claim_C1 :
    process_vault_step yamlRejects dumpModel ["title"] "note" "2024" "v/f.md"
      "---\nbad: [\n---\nbody"
      = .error "AttributeError: NoneType has no attribute replace" := rfl

/-- Claim C2, counterexample: a file whose frontmatter fails the parse before
and after the rescue rewrites, and whose text was changed by the structural
pre-fixers (a bare `source:` URL got quoted), is reported unrescuable, yet the
pre-fixed text is written to disk: the on-disk content is not left
unchanged. -/
theorem claim_C2_counterexample :
    process_vault_step yamlRejects dumpModel ["title"] "note" "2024" "v/f.md"
      origRescueFail
      = .ok (some preRescueFail,
          .stillInvalid "while parsing a flow node: expected the node content") ∧
    preRescueFail ≠ origRescueFail :=
  ⟨rfl, by decide⟩

/-- Claim C2, amended: when the frontmatter fails the standard parse and the
rescue-rewritten text also fails to parse, the engine reports the unrescuable
error and the frontmatter engine itself writes nothing (in particular the
rescued frontmatter text is never written); the batch step leaves the file
unchanged unless the structural pre-fixers changed the text, in which case
exactly the pre-fixed text is written. -/
theorem claim_C2 (parse : String → Except String (Option FM)) (dump : FM → String)
    (required : List String) (default_tag ctime filename content fm body ft e1 e2 : String)
    (ei : Nat)
    (hx : extract_frontmatter_block (preFixers content) = some (fm, ei, body))
    (h1 : parse fm = .error e1)
    (h2 : attempt_fix_broken_frontmatter fm = .ok ft)
    (h3 : parse ft = .error e2) :
    process_vault_step parse dump required default_tag ctime filename content
      = .ok ((if preFixers content = content then none else some (preFixers content)),
          .stillInvalid (firstLine e2)) := by
  simp only [process_vault_step, fix_frontmatter, hx, h1, h2, h3]
  by_cases hc : preFixers content = content <;> simp [hc]

/-- Claim C2, witness for the amended statement: the counterexample input run
through the amended theorem. -/
theorem claim_C2_witness :
    process_vault_step yamlRejects dumpModel ["title"] "note" "2024" "v/f.md"
      origRescueFail
      = .ok ((if preFixers origRescueFail = origRescueFail then none
              else some (preFixers origRescueFail)),
          .stillInvalid (firstLine "while parsing a flow node: expected the node content")) :=
  claim_C2 yamlRejects dumpModel ["title"] "note" "2024" "v/f.md" origRescueFail
    "title: x\nbad: [\nsource: \"https://e.com\"" "body"
    "title: \"x\"\nbad: [\nsource: \"https://e.com\""
    "while parsing a flow node: expected the node content"
    "while parsing a flow node: expected the node content" 4
    (by decide) rfl rfl rfl

/-- Claim C3, counterexample: the engine is not idempotent on file text.  With
`required_fields = [tags]` and `default_tag = "My Tag"`, the file `"hello"`
receives fresh frontmatter with the raw default tag on the first run, and the
second run rewrites that output again (sanitizing the tag), reporting a fix
rather than "unmodified". -/
theorem claim_C3_counterexample :
    process_vault_step parseTagsMyTag dumpModel ["tags"] "My Tag" "2024" "v/n.md"
      "hello" = .ok (some idemOut1, .inserted) ∧
    process_vault_step parseTagsMyTag dumpModel ["tags"] "My Tag" "2024" "v/n.md"
      idemOut1 = .ok (some idemOut2, .fixed) ∧
    idemOut2 ≠ idemOut1 :=
  ⟨rfl, rfl, by decide⟩

/-- Claim C3, amended: running the engine twice is not in general the same as
running it once (see the counterexample).  What does hold: when a run decides
no rewrite, the on-disk text is unchanged and an immediate second run on that
text again decides no rewrite with the same status. -/
theorem claim_C3 (parse : String → Except String (Option FM)) (dump : FM → String)
    (required : List String) (default_tag ctime filename content : String) (st : Status)
    (h : process_vault_step parse dump required default_tag ctime filename content
      = .ok (none, st)) :
    finalText content
        (process_vault_step parse dump required default_tag ctime filename content)
      = content ∧
    process_vault_step parse dump required default_tag ctime filename
        (finalText content
          (process_vault_step parse dump required default_tag ctime filename content))
      = .ok (none, st) := by
  have hf : finalText content
      (process_vault_step parse dump required default_tag ctime filename content)
      = content := by rw [h]; rfl
  exact ⟨hf, by rw [hf, h]⟩

/-- Claim C3, witness for the amended statement: a valid, already-normalized
file runs to "no rewrite", and the amended theorem applies to it. -/
theorem claim_C3_witness :
    finalText "---\ntitle: t\n---\nbody"
        (process_vault_step parseTitleT dumpModel ["title"] "note" "2024" "v/f.md"
          "---\ntitle: t\n---\nbody")
      = "---\ntitle: t\n---\nbody" ∧
    process_vault_step parseTitleT dumpModel ["title"] "note" "2024" "v/f.md"
        (finalText "---\ntitle: t\n---\nbody"
          (process_vault_step parseTitleT dumpModel ["title"] "note" "2024" "v/f.md"
            "---\ntitle: t\n---\nbody"))
      = .ok (none, .unmodified) :=
  claim_C3 parseTitleT dumpModel ["title"] "note" "2024" "v/f.md"
    "---\ntitle: t\n---\nbody" .unmodified rfl

/-- Claim C10: when the frontmatter fails the first parse, the rescue rewrite
parses successfully, and the field-normalization phase changes nothing, the
engine reports the file "Valid and unmodified" and performs no rewrite — the
`modified = True` set on rescue success is unconditionally reset before field
normalization, so the rescued frontmatter text is never written on its own. -/
theorem claim_C10 (parse : String → Except String (Option FM)) (dump : FM → String)
    (required : List String) (default_tag ctime filename content fm body ft e1 : String)
    (ei : Nat) (d : FM)
    (hx : extract_frontmatter_block content = some (fm, ei, body))
    (h1 : parse fm = .error e1)
    (h2 : attempt_fix_broken_frontmatter fm = .ok ft)
    (h3 : parse ft = .ok (some d))
    (h4 : normalizeAndDecide dump required default_tag ctime (pyStem filename) d fm body
      = .ok (none, .unmodified)) :
    fix_frontmatter parse dump required default_tag ctime filename content
      = .ok (none, .unmodified) := by
  simp only [fix_frontmatter, hx, h1, h2, h3, h4]

/-- Claim C10, witness: the frontmatter `title: a: b` fails YAML, the rescue
re-quotes it to `title: "a: b"`, which parses; the normalizer changes nothing
and the engine reports "Valid and unmodified" with no rewrite. -/
theorem claim_C10_witness :
    fix_frontmatter parseTitleColon dumpModel ["title"] "note" "2024" "v/f.md"
      "---\ntitle: a: b\n---\nbody" = .ok (none, .unmodified) :=
  claim_C10 parseTitleColon dumpModel ["title"] "note" "2024" "v/f.md"
    "---\ntitle: a: b\n---\nbody" "title: a: b" "body" "title: \"a: b\""
    "mapping values are not allowed here" 2 [("title", .s "a: b")]
    (by decide) rfl rfl rfl rfl

/-- Claim C8: for a file with no frontmatter block and
`required_fields = [title, created, tags]`, the emitted output is a delimiter
block around exactly the three required fields with their computed defaults
(`title` the file's stem, `created` the creation timestamp, `tags` the
one-element default-tag list), followed by the original body stripped of
leading whitespace, and the decision is "Inserted new frontmatter". -/
theorem claim_C8 (parse : String → Except String (Option FM)) (dump : FM → String)
    (default_tag ctime filename content : String)
    (h : extract_frontmatter_block content = none) :
    fix_frontmatter parse dump ["title", "created", "tags"] default_tag ctime
      filename content
      = .ok (some ("---\n"
          ++ dump [("title", .s (pyStem filename)), ("created", .s ctime),
                   ("tags", .l [default_tag])]
          ++ "---\n" ++ pyLstrip content), .inserted) := by
  simp only [fix_frontmatter, h]
  rfl

/-- Claim C8, witness: a concrete frontmatter-less file, with the dump oracle
evaluated. -/
theorem claim_C8_witness :
    extract_frontmatter_block "  hello" = none ∧
    fix_frontmatter yamlRejects dumpModel ["title", "created", "tags"] "note"
      "2024-01-01T00:00:00" "v/mynote.md" "  hello"
      = .ok (some
          "---\ntitle: mynote\ncreated: 2024-01-01T00:00:00\ntags:\n- note\n---\nhello",
          .inserted) := by
  refine ⟨by decide, ?_⟩
  rw [claim_C8 yamlRejects dumpModel "note" "2024-01-01T00:00:00" "v/mynote.md"
    "  hello" (by decide)]
  rfl

/-- Claim C6, counterexample: the claim asks for collapse whenever the sole
alias element equals the title after case- and whitespace-normalization.  The
code compares case-sensitively: for title `"Foo"` and alias list `["FOO"]`
(equal after case-normalization) no collapse happens — the list stays
`["FOO"]`, which is neither `[normalize "Foo"]` nor the case-normalized
title. -/
theorem claim_C6_counterexample :
    specCaseNormalize "FOO" = specCaseNormalize "Foo" ∧
    sanitize_list_field (.l ["FOO"]) (some (.s "Foo")) = ["FOO"] ∧
    ["FOO"] ≠ [normalize "Foo"] ∧ ["FOO"] ≠ [specCaseNormalize "Foo"] := by
  refine ⟨by decide, by decide, by decide, by decide⟩

/-- Claim C6, amended: for every alias list of length exactly 1 whose sole
element whitespace/quote-normalizes (with `?` stripped) case-sensitively to
the same value as the truthy title (whose normalization is non-empty), the
field normalizer collapses the alias field to exactly the one-element list
containing the normalized title. -/
theorem claim_C6 (t x : String) (h1 : t ≠ "") (h2 : normalize t ≠ "")
    (h3 : normalize x = normalize t) :
    sanitize_list_field (.l [x]) (some (.s t)) = [normalize t] := by
  have ht : pyTruthy (.s t) = true := by simp [pyTruthy, h1]
  simp only [sanitize_list_field, pyStr, ht, if_true]
  rw [if_pos ⟨h2, rfl, h3⟩]

/-- Claim C6, witness for the amended statement: title `"My Note?"` with alias
list `["My  Note"]` collapses to the normalized title `"My Note"`. -/
theorem claim_C6_witness :
    sanitize_list_field (.l ["My  Note"]) (some (.s "My Note?"))
      = [normalize "My Note?"] ∧ normalize "My Note?" = "My Note" :=
  ⟨claim_C6 "My Note?" "My  Note" (by decide) (by decide) (by decide), by decide⟩

end FFS
namespace FFS

/-- Lemma: `pyIndexOf` finds nothing exactly when the element is absent. -/
theorem pyIndexOf_eq_none (t : String) (l : List String) :
    pyIndexOf t l = none ↔ t ∉ l := by
  induction l with
  | nil => simp [pyIndexOf]
  | cons x xs ih =>
    by_cases hx : x = t
    · simp [pyIndexOf, hx]
    · simp [pyIndexOf, hx, ih, Ne.symm hx]

/-- On membership, `pyIndexOf` returns the length of the prefix before the
first occurrence. -/
theorem pyIndexOf_of_mem (t : String) (l : List String) (h : t ∈ l) :
    pyIndexOf t l = some (l.takeWhile (· ≠ t)).length := by
  induction l with
  | nil => simp at h
  | cons x xs ih =>
    by_cases hx : x = t
    · subst hx
      simp [pyIndexOf, List.takeWhile_cons]
    · have h' : t ∈ xs := by
        rcases List.mem_cons.mp h with h1 | h1
        · exact absurd h1.symm hx
        · exact h1
      simp [pyIndexOf, hx, ih h', List.takeWhile_cons]

/-- A prefix equals the take of its own length. -/
theorem take_takeWhile_length {α : Type} (p : α → Bool) (l : List α) :
    l.take (l.takeWhile p).length = l.takeWhile p := by
  induction l with
  | nil => simp
  | cons x xs ih =>
    by_cases hx : p x
    · simp [List.takeWhile, hx, ih]
    · simp [List.takeWhile, hx]

/-- Claim C7: for every document text, the extractor returns the frontmatter
and body exactly when the line list has at least three lines, the first line
strips to `---`, and a later line equals `---`; the frontmatter is then
precisely the lines strictly between the first line and the first such closing
line (joined), the reported index is that of the closing line, and the body is
everything after it; in every other case (too few lines, wrong first line, no
closing line) the result is the absent value — the embedded extractor is a
total function, so no exception can arise. -/
theorem claim_C7 (content : String) :
    extract_frontmatter_block content
      = (if 3 ≤ (pySplitlines content).length
            ∧ pyStrip ((pySplitlines content).headD "") = "---"
            ∧ "---" ∈ (pySplitlines content).drop 1
         then some (joinNL (((pySplitlines content).drop 1).takeWhile (· ≠ "---")),
             (((pySplitlines content).drop 1).takeWhile (· ≠ "---")).length + 1,
             joinNL ((pySplitlines content).drop
               ((((pySplitlines content).drop 1).takeWhile (· ≠ "---")).length + 2)))
         else none) := by
  unfold extract_frontmatter_block
  by_cases hlen : (pySplitlines content).length < 3
  · rw [if_pos (Or.inl hlen), if_neg]
    intro hc
    omega
  · by_cases hhead : pyStrip ((pySplitlines content).headD "") = "---"
    · rw [if_neg (by
        rintro (hA | hB)
        · exact hlen hA
        · exact hB hhead)]
      by_cases hmem : "---" ∈ (pySplitlines content).drop 1
      · rw [pyIndexOf_of_mem _ _ hmem, if_pos ⟨by omega, hhead, hmem⟩]
        dsimp only
        rw [take_takeWhile_length]
      · rw [(pyIndexOf_eq_none _ _).mpr hmem, if_neg (by
          intro hc
          exact hmem hc.2.2)]
    · rw [if_pos (Or.inr hhead), if_neg (by
        intro hc
        exact hhead hc.2.1)]


/-- Unfolding step of the `clean_malformed_title` loop with a previous value
present: compare against the previous value, stop on equality, otherwise
continue with one more `cmtStep`. -/
theorem cmtLoop_step (fuel : Nat) (x y : String) :
    cmtLoop (fuel + 1) (some y) x
      = if x = y then x else cmtLoop fuel (some x) (cmtStep x) := by
  show (if some x = some y then x else cmtLoop fuel (some x) (cmtStep x)) = _
  by_cases h : x = y
  · rw [if_pos (by rw [h]), if_pos h]
  · rw [if_neg (by simpa using h), if_neg h]

/-- First iteration of the loop: the previous value is `None`, so the body
always runs. -/
theorem cmtLoop_start (x : String) :
    cmtLoop 5 none x = cmtLoop 4 (some x) (cmtStep x) := by
  show (if some x = none then x else cmtLoop 4 (some x) (cmtStep x)) = _
  rw [if_neg (by simp)]

/-- A fixed point reached at iterate `j` freezes all later iterates. -/
theorem cmtStep_stab (s0 : String) (j k : Nat) (hjk : j ≤ k)
    (hfix : cmtStep (cmtStep^[j] s0) = cmtStep^[j] s0) :
    cmtStep^[k] s0 = cmtStep^[j] s0 := by
  have h : cmtStep^[k - j + j] s0 = cmtStep^[j] s0 := by
    rw [Function.iterate_add_apply]
    exact Function.iterate_fixed hfix (k - j)
  rwa [Nat.sub_add_cancel hjk] at h

/-- Claim C9: for every input string the malformed-title cleaner terminates
with at most 5 unescape iterations — the result is a stripped `m`-fold
iterate of the loop body for some `m ≤ 5` — and it stops early at a fixed
point: whenever the body fixes the `k`-th iterate for some `k < 5`, the result
is exactly the stripped `k`-th iterate.  (Termination itself is by
construction: the embedding is a total function; the inner quote-stripping
loop recurses on strictly shorter strings.) -/
theorem claim_C9 (s : String) :
    (∃ m, m ≤ 5 ∧ clean_malformed_title s = pyStrip (cmtStep^[m] (pyStrip s))) ∧
    (∀ k, k < 5 → cmtStep (cmtStep^[k] (pyStrip s)) = cmtStep^[k] (pyStrip s) →
      clean_malformed_title s = pyStrip (cmtStep^[k] (pyStrip s))) := by
  set s0 := pyStrip s with hs0def
  have run : clean_malformed_title s = pyStrip (cmtLoop 4 (some s0) (cmtStep s0)) := by
    rw [show clean_malformed_title s = pyStrip (cmtLoop 5 none s0) from rfl, cmtLoop_start]
  by_cases e1 : cmtStep s0 = s0
  · have rv : cmtLoop 4 (some s0) (cmtStep s0) = cmtStep s0 := by
      rw [cmtLoop_step 3, if_pos e1]
    refine ⟨⟨1, by omega, by rw [run, rv]; rfl⟩, ?_⟩
    intro k hk hfix
    have h2 : cmtStep^[k] s0 = cmtStep^[0] s0 := cmtStep_stab s0 0 k (by omega) e1
    rw [run, rv, h2]
    rw [show cmtStep^[0] s0 = s0 from rfl, e1]
  · have r1 : cmtLoop 4 (some s0) (cmtStep s0)
        = cmtLoop 3 (some (cmtStep s0)) (cmtStep (cmtStep s0)) := by
      rw [cmtLoop_step 3, if_neg e1]
    by_cases e2 : cmtStep (cmtStep s0) = cmtStep s0
    · have rv : cmtLoop 3 (some (cmtStep s0)) (cmtStep (cmtStep s0))
          = cmtStep (cmtStep s0) := by
        rw [cmtLoop_step 2, if_pos e2]
      refine ⟨⟨2, by omega, by rw [run, r1, rv]; rfl⟩, ?_⟩
      intro k hk hfix
      have h1 : cmtStep^[4] s0 = cmtStep^[1] s0 := cmtStep_stab s0 1 4 (by omega) e2
      have h2 : cmtStep^[4] s0 = cmtStep^[k] s0 := cmtStep_stab s0 k 4 (by omega) hfix
      have h3 : cmtStep^[k] s0 = cmtStep^[1] s0 := h2.symm.trans h1
      rw [run, r1, rv, h3, e2]
      rfl
    · have r2 : cmtLoop 3 (some (cmtStep s0)) (cmtStep (cmtStep s0))
          = cmtLoop 2 (some (cmtStep (cmtStep s0)))
              (cmtStep (cmtStep (cmtStep s0))) := by
        rw [cmtLoop_step 2, if_neg e2]
      by_cases e3 : cmtStep (cmtStep (cmtStep s0)) = cmtStep (cmtStep s0)
      · have rv : cmtLoop 2 (some (cmtStep (cmtStep s0)))
            (cmtStep (cmtStep (cmtStep s0))) = cmtStep (cmtStep (cmtStep s0)) := by
          rw [cmtLoop_step 1, if_pos e3]
        refine ⟨⟨3, by omega, by rw [run, r1, r2, rv]; rfl⟩, ?_⟩
        intro k hk hfix
        have h1 : cmtStep^[4] s0 = cmtStep^[2] s0 := cmtStep_stab s0 2 4 (by omega) e3
        have h2 : cmtStep^[4] s0 = cmtStep^[k] s0 := cmtStep_stab s0 k 4 (by omega) hfix
        have h3 : cmtStep^[k] s0 = cmtStep^[2] s0 := h2.symm.trans h1
        rw [run, r1, r2, rv, h3, e3]
        rfl
      · have r3 : cmtLoop 2 (some (cmtStep (cmtStep s0)))
            (cmtStep (cmtStep (cmtStep s0)))
            = cmtLoop 1 (some (cmtStep (cmtStep (cmtStep s0))))
                (cmtStep (cmtStep (cmtStep (cmtStep s0)))) := by
          rw [cmtLoop_step 1, if_neg e3]
        by_cases e4 : cmtStep (cmtStep (cmtStep (cmtStep s0)))
            = cmtStep (cmtStep (cmtStep s0))
        · have rv : cmtLoop 1 (some (cmtStep (cmtStep (cmtStep s0))))
              (cmtStep (cmtStep (cmtStep (cmtStep s0))))
              = cmtStep (cmtStep (cmtStep (cmtStep s0))) := by
            rw [cmtLoop_step 0, if_pos e4]
          refine ⟨⟨4, by omega, by rw [run, r1, r2, r3, rv]; rfl⟩, ?_⟩
          intro k hk hfix
          have h1 : cmtStep^[4] s0 = cmtStep^[3] s0 := cmtStep_stab s0 3 4 (by omega) e4
          have h2 : cmtStep^[4] s0 = cmtStep^[k] s0 := cmtStep_stab s0 k 4 (by omega) hfix
          have h3 : cmtStep^[k] s0 = cmtStep^[3] s0 := h2.symm.trans h1
          rw [run, r1, r2, r3, rv, h3, e4]
          rfl
        · have rv : cmtLoop 1 (some (cmtStep (cmtStep (cmtStep s0))))
              (cmtStep (cmtStep (cmtStep (cmtStep s0))))
              = cmtStep (cmtStep (cmtStep (cmtStep (cmtStep s0)))) := by
            rw [cmtLoop_step 0, if_neg e4]
            rfl
          refine ⟨⟨5, by omega, by rw [run, r1, r2, r3, rv]; rfl⟩, ?_⟩
          intro k hk hfix
          have h2 : cmtStep^[5] s0 = cmtStep^[k] s0 := cmtStep_stab s0 k 5 (by omega) hfix
          rw [run, r1, r2, r3, rv, ← h2]
          rfl


/-- Claim C9, witness: on the concrete title `"hi"` (with literal quotes) a
fixed point is reached after one iteration, and the cleaner stops there,
returning `hi`. -/
theorem claim_C9_witness :
    cmtStep (cmtStep^[1] (pyStrip "\"hi\"")) = cmtStep^[1] (pyStrip "\"hi\"") ∧
    clean_malformed_title "\"hi\"" = pyStrip (cmtStep^[1] (pyStrip "\"hi\"")) ∧
    clean_malformed_title "\"hi\"" = "hi" :=
  ⟨by decide, (claim_C9 "\"hi\"").2 1 (by omega) (by decide), by decide⟩

theorem data_mk (l : List Char) : (String.mk l).data = l := rfl

theorem char_toNat_inj {c d : Char} (h : c.toNat = d.toNat) : c = d := by
  apply Char.ext
  apply UInt32.eq_of_toBitVec_eq
  exact BitVec.eq_of_toNat_eq h

theorem char_toNat_ofNat (n : Nat) (h : n < 55296) : (Char.ofNat n).toNat = n := by
  have hv : n.isValidChar := Or.inl h
  simp [Char.ofNat, hv, Char.ofNatAux, Char.toNat, UInt32.toNat, BitVec.toNat_ofNatLt]

/-- Lowercasing a word-class character lands in digits, underscore or
lowercase letters. -/
theorem pyToLower_toNat (c : Char) (hc : isWordChar c = true) :
    (48 ≤ (pyToLower c).toNat ∧ (pyToLower c).toNat ≤ 57) ∨ (pyToLower c).toNat = 95
      ∨ (97 ≤ (pyToLower c).toNat ∧ (pyToLower c).toNat ≤ 122) := by
  have hn : (48 ≤ c.toNat ∧ c.toNat ≤ 57) ∨ (65 ≤ c.toNat ∧ c.toNat ≤ 90)
      ∨ (97 ≤ c.toNat ∧ c.toNat ≤ 122) ∨ c.toNat = 95 := by
    simp only [isWordChar, Bool.or_eq_true, Bool.and_eq_true, decide_eq_true_eq,
      beq_iff_eq] at hc
    rcases hc with ((h | h) | h) | h
    · exact Or.inl h
    · exact Or.inr (Or.inl h)
    · exact Or.inr (Or.inr (Or.inl h))
    · refine Or.inr (Or.inr (Or.inr ?_))
      rw [h]
      rfl
  unfold pyToLower
  split
  · next hin => rw [char_toNat_ofNat _ (by omega)]; omega
  · next hin => omega

/-- Characters in the digit/underscore/lowercase ranges are not whitespace,
not uppercase, and not hyphens. -/
theorem props_of_toNat_range (c : Char)
    (h : (48 ≤ c.toNat ∧ c.toNat ≤ 57) ∨ c.toNat = 95
      ∨ (97 ≤ c.toNat ∧ c.toNat ≤ 122)) :
    isPySpace c = false ∧ isUpperA c = false ∧ c ≠ '-' := by
  refine ⟨?_, ?_, ?_⟩
  · cases hb : isPySpace c
    · rfl
    · exfalso
      have hc : c = ' ' ∨ c = '\t' ∨ c = '\n' ∨ c = '\x0d' ∨ c = '\x0b' ∨ c = '\x0c' := by
        simpa [isPySpace, beq_iff_eq, Bool.or_eq_true, or_assoc] using hb
      rcases hc with rfl | rfl | rfl | rfl | rfl | rfl <;> revert h <;> decide
  · cases hb : isUpperA c
    · rfl
    · exfalso
      simp only [isUpperA, Bool.and_eq_true, decide_eq_true_eq] at hb
      omega
  · intro he
    subst he
    revert h
    decide

/-- Every character of a sanitized tag is non-whitespace, non-uppercase and
not a hyphen. -/
theorem sanitize_tag_props (s : String) (c : Char) (hc : c ∈ (sanitize_tag s).data) :
    isPySpace c = false ∧ isUpperA c = false ∧ c ≠ '-' := by
  unfold sanitize_tag at hc
  simp only [data_mk, List.mem_map] at hc
  obtain ⟨d, hd, rfl⟩ := hc
  rw [List.mem_filter] at hd
  obtain ⟨hd4, hpred⟩ := hd
  have hdne : d ≠ '-' := by
    simp only [List.mem_map] at hd4
    obtain ⟨e, _, rfl⟩ := hd4
    by_cases h : e = '-'
    · rw [if_pos h]
      decide
    · rw [if_neg h]
      exact h
  have hword : isWordChar d = true := by
    have hp2 := hpred
    simp only [Bool.or_eq_true, decide_eq_true_eq] at hp2
    rcases hp2 with h | h
    · exact h
    · exact absurd h hdne
  exact props_of_toNat_range _ (pyToLower_toNat d hword)

theorem lexLt_irrefl (l : List Char) : lexLt l l = false := by
  induction l with
  | nil => rfl
  | cons a as ih => simp [lexLt, ih]

theorem lexLt_rev (a b : List Char) (hne : a ≠ b) (hlt : lexLt a b = false) :
    lexLt b a = true := by
  induction a generalizing b with
  | nil =>
    cases b with
    | nil => exact absurd rfl hne
    | cons c cs => simp [lexLt] at hlt
  | cons x xs ih =>
    cases b with
    | nil => simp [lexLt]
    | cons y ys =>
      by_cases h1 : x.toNat < y.toNat
      · simp [lexLt, h1] at hlt
      · by_cases h2 : x = y
        · subst h2
          have hne' : xs ≠ ys := fun he => hne (by rw [he])
          have hlt' : lexLt xs ys = false := by simpa [lexLt, h1] using hlt
          simp [lexLt, ih ys hne' hlt']
        · have hxy : x.toNat ≠ y.toNat := fun he => h2 (char_toNat_inj he)
          have h3 : y.toNat < x.toNat := by omega
          simp [lexLt, h3]

theorem lexLt_trans {a b c : List Char} (h1 : lexLt a b = true)
    (h2 : lexLt b c = true) : lexLt a c = true := by
  induction a generalizing b c with
  | nil =>
    cases c with
    | nil => cases b <;> simp [lexLt] at h2
    | cons z zs => simp [lexLt]
  | cons x xs ih =>
    cases b with
    | nil => simp [lexLt] at h1
    | cons y ys =>
      cases c with
      | nil => simp [lexLt] at h2
      | cons z zs =>
        by_cases hxy : x.toNat < y.toNat
        · by_cases hyz : y.toNat < z.toNat
          · have : x.toNat < z.toNat := by omega
            simp [lexLt, this]
          · by_cases hyz2 : y = z
            · subst hyz2
              simp [lexLt, hxy]
            · simp [lexLt, hyz, hyz2] at h2
        · by_cases hxy2 : x = y
          · subst hxy2
            have h1' : lexLt xs ys = true := by simpa [lexLt, hxy] using h1
            by_cases hyz : x.toNat < z.toNat
            · simp [lexLt, hyz]
            · by_cases hyz2 : x = z
              · subst hyz2
                have h2' : lexLt ys zs = true := by simpa [lexLt, hyz] using h2
                simp [lexLt, hyz, ih h1' h2']
              · simp [lexLt, hyz, hyz2] at h2
          · simp [lexLt, hxy, hxy2] at h1

theorem strLt_irrefl (a : String) : strLt a a = false := lexLt_irrefl a.data

theorem strLt_rev (a b : String) (hne : a ≠ b) (h : strLt a b = false) :
    strLt b a = true :=
  lexLt_rev a.data b.data (fun hd => hne (by cases a; cases b; exact congrArg String.mk hd)) h

theorem strLt_trans {a b c : String} (h1 : strLt a b = true)
    (h2 : strLt b c = true) : strLt a c = true := lexLt_trans h1 h2

theorem mem_insertSortedU (x a : String) (l : List String) :
    a ∈ insertSortedU x l ↔ a = x ∨ a ∈ l := by
  induction l with
  | nil => simp [insertSortedU]
  | cons y ys ih =>
    unfold insertSortedU
    by_cases h1 : strLt x y = true
    · rw [if_pos h1]
      simp only [List.mem_cons]
    · rw [if_neg h1]
      by_cases h2 : x = y
      · rw [if_pos h2]
        subst h2
        simp only [List.mem_cons]
        tauto
      · rw [if_neg h2]
        simp only [List.mem_cons, ih]
        tauto

theorem pairwise_insertSortedU (x : String) (l : List String)
    (h : l.Pairwise (fun a b => strLt a b = true)) :
    (insertSortedU x l).Pairwise (fun a b => strLt a b = true) := by
  induction l with
  | nil => simp [insertSortedU]
  | cons y ys ih =>
    rcases List.pairwise_cons.mp h with ⟨hy, hys⟩
    unfold insertSortedU
    by_cases h1 : strLt x y = true
    · rw [if_pos h1]
      refine List.Pairwise.cons ?_ h
      intro z hz
      rcases List.mem_cons.mp hz with rfl | hz'
      · exact h1
      · exact strLt_trans h1 (hy z hz')
    · rw [if_neg h1]
      by_cases h2 : x = y
      · rw [if_pos h2]
        exact h
      · rw [if_neg h2]
        refine List.Pairwise.cons ?_ (ih hys)
        intro z hz
        rcases (mem_insertSortedU x z ys).mp hz with heq | hz'
        · rw [heq]
          exact strLt_rev x y h2 (by simpa using h1)
        · exact hy z hz'

theorem mem_sortedSet (a : String) (l : List String) :
    a ∈ sortedSet l ↔ a ∈ l := by
  induction l with
  | nil => simp [sortedSet]
  | cons x xs ih =>
    show a ∈ insertSortedU x (sortedSet xs) ↔ _
    rw [mem_insertSortedU]
    simp only [List.mem_cons, ih]

theorem pairwise_sortedSet (l : List String) :
    (sortedSet l).Pairwise (fun a b => strLt a b = true) := by
  induction l with
  | nil => simp [sortedSet]
  | cons x xs ih => exact pairwise_insertSortedU x (sortedSet xs) ih

/-- Claim C5: for every input tag collection (comma-separated string, list, or
other), every character of every cleaned tag is non-whitespace, non-uppercase
and not a hyphen, and the cleaned list is strictly sorted by code point (hence
lexicographically sorted) and free of duplicates. -/
theorem claim_C5 (raw : RawTags) :
    (∀ t ∈ clean_tags raw, ∀ c ∈ t.data,
      isPySpace c = false ∧ isUpperA c = false ∧ c ≠ '-') ∧
    (clean_tags raw).Pairwise (fun a b => strLt a b = true) ∧
    (clean_tags raw).Nodup := by
  refine ⟨?_, ?_, ?_⟩
  · intro t ht c hc
    unfold clean_tags at ht
    rw [mem_sortedSet] at ht
    rw [List.mem_filterMap] at ht
    obtain ⟨item, _, hf⟩ := ht
    match item with
    | .str s =>
      simp only at hf
      by_cases hz : sanitize_tag s = ""
      · rw [if_pos hz] at hf
        exact absurd hf (by simp)
      · rw [if_neg hz] at hf
        have : sanitize_tag s = t := Option.some.inj hf
        subst this
        exact sanitize_tag_props s c hc
    | .nonstr =>
      exact absurd hf (by simp)
  · exact pairwise_sortedSet _
  · have hp : (clean_tags raw).Pairwise (fun a b => strLt a b = true) :=
      pairwise_sortedSet _
    refine List.Pairwise.imp ?_ hp
    intro a b hab he
    subst he
    rw [strLt_irrefl a] at hab
    exact Bool.false_ne_true hab


/-- Claim C5, witness: a concrete mixed tag string is cleaned to a sorted
duplicate-free list, and the theorem's character properties hold at a sample
character of a sample cleaned tag. -/
theorem claim_C5_witness :
    clean_tags (.str "B Tag, My-Tag ,b tag") = ["b_tag", "my_tag"] ∧
    (isPySpace 'm' = false ∧ isUpperA 'm' = false ∧ 'm' ≠ '-') :=
  ⟨by decide,
    (claim_C5 (.str "B Tag, My-Tag ,b tag")).1 "my_tag" (by decide) 'm' (by decide)⟩

end FFS
